import Mathlib

/-!
Verification of the KoG2P grapheme-to-phoneme converter (kog2p/g2p.py).

The Python source is embedded shallowly: strings are lists of characters,
Unicode codepoints are natural numbers (as produced by Python `ord`), and
each `re.sub` call of the source is translated into an executable Lean
function with the same left-to-right, non-overlapping replacement
semantics.  Python exceptions (out-of-range list indexing) are modelled
with `Option`.
-/

namespace KoG2P

/-- Source `isHangul`: `charint >= 44032 and charint <= 55203`. -/
def isHangul (charint : Nat) : Prop := 44032 ≤ charint ∧ charint ≤ 55203

instance (c : Nat) : Decidable (isHangul c) :=
  inferInstanceAs (Decidable (_ ∧ _))

/-- Source `checkCharType`: `1` for whitespace (the single codepoint 32),
`0` for Hangul syllables, `-1` otherwise. -/
def checkCharType (var_list : List Nat) : List Int :=
  var_list.map (fun c => if c = 32 then 1 else if isHangul c then 0 else -1)

/-- Onset table `ONS` of the source. -/
def ONS : List String :=
  ["k0", "kk", "nn", "t0", "tt", "rr", "mm", "p0", "pp",
   "s0", "ss", "oh", "c0", "cc", "ch", "kh", "th", "ph", "h0"]

/-- Nucleus table `NUC` of the source. -/
def NUC : List String :=
  ["aa", "qq", "ya", "yq", "vv", "ee", "yv", "ye", "oo", "wa",
   "wq", "wo", "yo", "uu", "wv", "we", "wi", "yu", "xx", "xi", "ii"]

/-- Coda table `COD` of the source (`COD[0]` is the empty marker). -/
def COD : List String :=
  ["", "kf", "kk", "ks", "nf", "nc", "nh", "tf",
   "ll", "lk", "lm", "lb", "ls", "lt", "lp", "lh",
   "mf", "pf", "ps", "s0", "ss", "oh", "c0", "ch",
   "kh", "th", "ph", "h0"]

/-- Source `iONS = int(math.floor(df / 588)) + 1` where `df = ord(char) - 44032`. -/
def iONS (c : Nat) : Nat := (c - 44032) / 588 + 1

/-- Source `iNUC = int(math.floor((df % 588) / 28)) + 1`. -/
def iNUC (c : Nat) : Nat := ((c - 44032) % 588) / 28 + 1

/-- Source `iCOD = int((df % 588) % 28) + 1`. -/
def iCOD (c : Nat) : Nat := ((c - 44032) % 588) % 28 + 1

/-- The string `s1 + s2 + s3 = '-' + ONS[iONS-1] + NUC[iNUC-1] + COD[iCOD-1]`
appended to `phones` for one Hangul syllable (`s3` is empty for `COD[0]`). -/
def sylChunk (c : Nat) : List Char :=
  '-' :: ((ONS.getD (iONS c - 1) "").data ++ (NUC.getD (iNUC c - 1) "").data
    ++ (COD.getD (iCOD c - 1) "").data)

/-- Model of `re.sub('-(oh)', '-', phones)` — replace every occurrence of `-oh`
(scanning left to right, non-overlapping) by `-`. -/
def subDashOh : List Char → List Char
  | [] => []
  | [c] => [c]
  | [c, d] => [c, d]
  | c :: d :: e :: rest =>
    if c = '-' ∧ d = 'o' ∧ e = 'h' then '-' :: subDashOh rest
    else c :: subDashOh (d :: e :: rest)

/-- The main `while` loop of `graph2phone`: for each codepoint append one
syllable chunk, the marker `#`, or nothing, then apply
`re.sub('-(oh)', '-', phones)` to the accumulated string. -/
def g2pLoop : List Char → List Nat → List Char
  | acc, [] => acc
  | acc, c :: rest =>
    if c = 32 then g2pLoop (subDashOh (acc ++ ['#'])) rest
    else if isHangul c then g2pLoop (subDashOh (acc ++ sylChunk c)) rest
    else g2pLoop (subDashOh acc) rest

/-- Model of `re.sub('^oh', '', phones)`. -/
def subLeadingOh : List Char → List Char
  | 'o' :: 'h' :: rest => rest
  | s => s

/-- Model of `re.sub('-(oh)', '', phones)`. -/
def subDashOhDel : List Char → List Char
  | [] => []
  | [c] => [c]
  | [c, d] => [c, d]
  | c :: d :: e :: rest =>
    if c = '-' ∧ d = 'o' ∧ e = 'h' then subDashOhDel rest
    else c :: subDashOhDel (d :: e :: rest)

/-- Model of `re.sub('oh-', 'ng-', phones)`. -/
def subOhDash : List Char → List Char
  | [] => []
  | [c] => [c]
  | [c, d] => [c, d]
  | c :: d :: e :: rest =>
    if c = 'o' ∧ d = 'h' ∧ e = '-' then 'n' :: 'g' :: '-' :: subOhDash rest
    else c :: subOhDash (d :: e :: rest)

/-- Model of `re.sub('oh([# ]|$)', 'ng', phones)` — note that the replacement does
not restore the captured boundary character, so a `#` or space directly
after a coda `oh` is deleted together with it. -/
def subOhBoundary : List Char → List Char
  | [] => []
  | ['o', 'h'] => ['n', 'g']
  | [c] => [c]
  | [c, d] => [c, d]
  | c :: d :: e :: rest =>
    if c = 'o' ∧ d = 'h' ∧ (e = '#' ∨ e = ' ') then 'n' :: 'g' :: subOhBoundary rest
    else c :: subOhBoundary (d :: e :: rest)

/-- Python `\w` for the ASCII alphabet used by the phone strings. -/
def isWordChar (c : Char) : Bool := c.isAlphanum || c = '_'

/-- The largest index `j ≥ 1` of a `-` inside a non-word run: the
backtracking position of the greedy `\W+` in the pattern `(\W+)\-`. -/
def lastDashIdx (run : List Char) : Option Nat :=
  (List.range run.length).reverse.find?
    (fun j => decide (j ≠ 0) && decide (run.getD j ' ' = '-'))

/-- Model of `re.sub('(\W+)\-', '\\1', phones)`: inside each maximal run of
non-word characters the greedy `\W+` backtracks to the last `-` of the run
at index `≥ 1`; that `-` is deleted and scanning resumes after it. -/
def subRunDash : Nat → List Char → List Char
  | 0, s => s
  | _ + 1, [] => []
  | fuel + 1, c :: rest =>
    if isWordChar c then c :: subRunDash fuel rest
    else
      let run := (c :: rest).takeWhile (fun d => !isWordChar d)
      let tail := (c :: rest).drop run.length
      match lastDashIdx run with
      | some j => run.take j ++ subRunDash fuel (run.drop (j + 1) ++ tail)
      | none => run ++ subRunDash fuel tail

/-- Model of `re.sub('\W+$', '', phones)`. -/
def dropTrailingNonword (s : List Char) : List Char :=
  (s.reverse.dropWhile (fun c => !isWordChar c)).reverse

/-- Model of `re.sub('^\-', '', phones)`. -/
def subLeadingDash : List Char → List Char
  | [] => []
  | x :: rest => if x = '-' then rest else x :: rest

/-- Source `graph2phone` (the `decomposeToPhones` operation of the spec):
decompose a list of Unicode codepoints into the romanized phone string. -/
def graph2phone (graphs : List Nat) : List Char :=
  let p := g2pLoop [] graphs
  let p := subLeadingOh p
  let p := subDashOhDel p
  let p := subOhDash p
  let p := subOhBoundary p
  let p := subRunDash p.length p
  let p := dropTrailingNonword p
  subLeadingDash p

/-- Codepoints kept by the `graph2phone` loop (whitespace 32 or Hangul);
all others fall into the `-1` class and emit nothing. -/
def keepChar (c : Nat) : Bool := decide (c = 32) || decide (isHangul c)

/-- Whether `-oh` occurs as a substring (proof-side helper mirroring the
scan of `subDashOh`). -/
def hasDashOh : List Char → Bool
  | [] => false
  | [_] => false
  | [_, _] => false
  | c :: d :: e :: rest =>
    if c = '-' ∧ d = 'o' ∧ e = 'h' then true else hasDashOh (d :: e :: rest)

/-- Source `addPhoneBoundary` (the TokenSegmenter of the spec): insert `,`
after every two-character unit; `-` and `#` pass through, a space is
skipped.  After consuming a marker or space the loop unconditionally reads
the next two characters, so a marker or space followed by exactly one more
character makes Python raise `IndexError`; that is modelled as `none`. -/
def addPhoneBoundary : List Char → Option (List Char)
  | [] => some []
  | [_] => some []
  | x :: y :: rest =>
    if x = '-' then
      match rest with
      | [] => none
      | b :: rest2 => (addPhoneBoundary rest2).map (fun t => '-' :: y :: b :: ',' :: t)
    else if x = ' ' then
      match rest with
      | [] => none
      | b :: rest2 => (addPhoneBoundary rest2).map (fun t => y :: b :: ',' :: t)
    else if x = '#' then
      match rest with
      | [] => none
      | b :: rest2 => (addPhoneBoundary rest2).map (fun t => '#' :: y :: b :: ',' :: t)
    else (addPhoneBoundary rest).map (fun t => x :: y :: ',' :: t)

/-- Abstract syntax of the regular-expression subset used by the rule
table of `runKoG2P`: literals, character classes, the wildcard, anchors,
concatenation, alternation, numbered capturing groups, lookahead,
lookbehind, and the optional quantifier. -/
inductive Re where
  | eps : Re
  | lit : Char → Re
  | cls : List Char → Re
  | dot : Re
  | bol : Re
  | eol : Re
  | cat : Re → Re → Re
  | alt : Re → Re → Re
  | grp : Nat → Re → Re
  | look : Re → Re
  | lkb : Re → Re
  | opt : Re → Re

/-- Capture environment: (group number, start, stop) triples, most recent
first. -/
abbrev Caps := List (Nat × Nat × Nat)

/-- Backtracking matcher: all ways to match a pattern at position `pos` of
`s`, as (end position, captures) pairs in Python `re` preference order
(ordered alternation, greedy `?`).  A lookbehind matches when the inner
pattern matches some substring ending exactly at `pos` (the patterns of
the rule table are all fixed-width per alternative, as Python requires). -/
def matchRe (s : List Char) : Re → Nat → Caps → List (Nat × Caps)
  | .eps, pos, caps => [(pos, caps)]
  | .lit c, pos, caps =>
    match s[pos]? with
    | some d => if d = c then [(pos + 1, caps)] else []
    | none => []
  | .cls cs, pos, caps =>
    match s[pos]? with
    | some d => if cs.contains d then [(pos + 1, caps)] else []
    | none => []
  | .dot, pos, caps =>
    match s[pos]? with
    | some d => if d = '\n' then [] else [(pos + 1, caps)]
    | none => []
  | .bol, pos, caps => if pos = 0 then [(pos, caps)] else []
  | .eol, pos, caps => if pos = s.length then [(pos, caps)] else []
  | .cat a b, pos, caps =>
    (matchRe s a pos caps).flatMap (fun pc => matchRe s b pc.1 pc.2)
  | .alt a b, pos, caps => matchRe s a pos caps ++ matchRe s b pos caps
  | .grp n a, pos, caps =>
    (matchRe s a pos caps).map (fun pc => (pc.1, (n, pos, pc.1) :: pc.2))
  | .look a, pos, caps =>
    match matchRe s a pos caps with
    | [] => []
    | pc :: _ => [(pos, pc.2)]
  | .lkb a, pos, caps =>
    match (List.range (pos + 1)).filterMap
        (fun st => ((matchRe s a st caps).filter (fun pc => pc.1 == pos)).head?) with
    | [] => []
    | pc :: _ => [(pos, pc.2)]
  | .opt a, pos, caps => matchRe s a pos caps ++ [(pos, caps)]

/-- Character-class body: everything up to the closing bracket (the rule
table uses only literal sets, with `-` in final position). -/
def readCls (t : List Char) : Option (List Char × List Char) :=
  let body := t.takeWhile (fun c => c != ']')
  match t.drop body.length with
  | ']' :: r => some (body, r)
  | _ => none

/-- Recursive-descent parser for the pattern subset, fuel-bounded.
`mode` 0 parses an alternation, 1 a sequence, 2 a single atom with its
optional `?` quantifier; `g` is the next capture-group number (groups are
numbered by the position of their opening parenthesis, as in Python).
Returns the parsed expression, the next group number and the unconsumed
input. -/
def parseRe : Nat → Nat → Nat → List Char → Option (Re × Nat × List Char)
  | 0, _, _, _ => none
  | fuel + 1, 0, g, cs =>
    match parseRe fuel 1 g cs with
    | none => none
    | some (a, g1, rest) =>
      match rest with
      | '|' :: rest2 =>
        match parseRe fuel 0 g1 rest2 with
        | none => none
        | some (b, g2, rest3) => some (.alt a b, g2, rest3)
      | _ => some (a, g1, rest)
  | fuel + 1, 1, g, cs =>
    match cs with
    | [] => some (.eps, g, [])
    | ')' :: _ => some (.eps, g, cs)
    | '|' :: _ => some (.eps, g, cs)
    | _ =>
      match parseRe fuel 2 g cs with
      | none => none
      | some (a, g1, rest) =>
        match parseRe fuel 1 g1 rest with
        | none => none
        | some (b, g2, rest2) => some (.cat a b, g2, rest2)
  | fuel + 1, _, g, cs =>
    let base : Option (Re × Nat × List Char) :=
      match cs with
      | '(' :: '?' :: '=' :: t =>
        match parseRe fuel 0 g t with
        | some (r, g1, ')' :: t2) => some (.look r, g1, t2)
        | _ => none
      | '(' :: '?' :: '<' :: '=' :: t =>
        match parseRe fuel 0 g t with
        | some (r, g1, ')' :: t2) => some (.lkb r, g1, t2)
        | _ => none
      | '(' :: '?' :: _ => none
      | '(' :: t =>
        match parseRe fuel 0 (g + 1) t with
        | some (r, g1, ')' :: t2) => some (.grp g r, g1, t2)
        | _ => none
      | '[' :: t =>
        match readCls t with
        | some (body, r) => some (.cls body, g, r)
        | none => none
      | '^' :: t => some (.bol, g, t)
      | '$' :: t => some (.eol, g, t)
      | '.' :: t => some (.dot, g, t)
      | '\\' :: _ => none
      | '?' :: _ => none
      | '+' :: _ => none
      | '*' :: _ => none
      | ')' :: _ => none
      | '|' :: _ => none
      | c :: t => some (.lit c, g, t)
      | [] => none
    match base with
    | some (a, g1, '?' :: t) => some (.opt a, g1, t)
    | some (a, g1, rest) => some (a, g1, rest)
    | none => none

/-- Parse a whole pattern (group numbering starts at 1). -/
def parsePattern (p : List Char) : Option Re :=
  match parseRe (4 * p.length + 8) 0 1 p with
  | some (r, _, []) => some r
  | _ => none

/-- Most recent capture of group `n`. -/
def capLookup (caps : Caps) (n : Nat) : Option (Nat × Nat) :=
  match caps.find? (fun t => t.1 == n) with
  | some t => some t.2
  | none => none

/-- The substring `s[a:b]`. -/
def strSlice (s : List Char) (a b : Nat) : List Char := (s.drop a).take (b - a)

/-- Render a Python replacement template (`\1` … `\9`, `\g<1>`, literal
text) against the captures of one match on `s`. -/
def renderRepl (s : List Char) (caps : Caps) : List Char → List Char
  | '\\' :: 'g' :: '<' :: d :: '>' :: t =>
    (match capLookup caps (d.toNat - 48) with
     | some (a, b) => strSlice s a b
     | none => []) ++ renderRepl s caps t
  | '\\' :: d :: t =>
    if d.isDigit then
      (match capLookup caps (d.toNat - 48) with
       | some (a, b) => strSlice s a b
       | none => []) ++ renderRepl s caps t
    else d :: renderRepl s caps t
  | c :: t => c :: renderRepl s caps t
  | [] => []

/-- The scan of `re.sub`: at each position try the pattern (taking the
engine's first match, which is Python's); on a match emit the rendered
replacement and continue after the match, otherwise copy one character. -/
def scanSub (re : Re) (rep s : List Char) : Nat → Nat → List Char
  | 0, pos => s.drop pos
  | fuel + 1, pos =>
    if pos ≥ s.length then
      match matchRe s re pos [] with
      | (_, caps) :: _ => renderRepl s caps rep
      | [] => []
    else
      match matchRe s re pos [] with
      | (e, caps) :: _ =>
        if e ≤ pos then
          renderRepl s caps rep ++ strSlice s pos (pos + 1)
            ++ scanSub re rep s fuel (pos + 1)
        else renderRepl s caps rep ++ scanSub re rep s fuel e
      | [] => strSlice s pos (pos + 1) ++ scanSub re rep s fuel (pos + 1)

/-- Model of `re.sub(pat, rep, s)` for the pattern subset; an unparsable pattern
leaves the string unchanged (every pattern of the rule table parses). -/
def reSub (pat rep s : List Char) : List Char :=
  match parsePattern pat with
  | some re => scanSub re rep s (s.length + 2) 0
  | none => s

/-- Source `phone2prono`: apply every (pattern, replacement) rule of the
table once, in order, threading the string through. -/
def phone2prono (rule_in rule_out : List String) (phones : List Char) : List Char :=
  (rule_in.zip rule_out).foldl (fun s pr => reSub pr.1.data pr.2.data s) phones

/-- Replace every occurrence of the character `a` by `b` (the single
character `re.sub` calls of `graph2prono`). -/
def subChar (a b : Char) (s : List Char) : List Char :=
  s.map (fun c => if c = a then b else c)

/-- Model of `re.sub(' $', '', prono)`: drop one trailing space. -/
def stripTrailingSpace (s : List Char) : List Char :=
  match s.reverse with
  | ' ' :: r => r.reverse
  | _ => s

/-- Model of `re.sub('-+', '-', prono)`: collapse every run of `-` to a single `-`;
the flag records whether the previous character was a `-`. -/
def collapseDash : Bool → List Char → List Char
  | _, [] => []
  | prev, c :: rest =>
    if c = '-' then
      if prev then collapseDash true rest else '-' :: collapseDash true rest
    else c :: collapseDash false rest

/-- Model of `re.sub('-', '', ...)`: strip all syllable-boundary markers. -/
def removeDash (s : List Char) : List Char := s.filter (fun c => c != '-')

/-- One iteration body of the `while not identical` loop of `graph2prono`:
re-tokenize (`prono_prev + ','` with spaces turned into commas), run one
full rule pass, turn commas back into spaces and drop the trailing
space. -/
def pronoPass (rule_in rule_out : List String) (prev : List Char) : List Char :=
  stripTrailingSpace (subChar ',' ' '
    (phone2prono rule_in rule_out (subChar ' ' ',' (prev ++ [',']))))

/-- The `while not identical` loop of `graph2prono`, fuel-bounded: `none`
models not reaching the termination condition within `fuel` iterations. -/
def g2prLoop (rule_in rule_out : List String) : Nat → List Char → Option (List Char)
  | 0, _ => none
  | fuel + 1, prev =>
    let new := pronoPass rule_in rule_out prev
    if removeDash prev = removeDash new then some (removeDash new)
    else g2prLoop rule_in rule_out fuel new

/-- The value of `prono_prev` after `k` iterations of the loop body,
starting from `p`. -/
def iterPass (rule_in rule_out : List String) : Nat → List Char → List Char
  | 0, p => p
  | k + 1, p => iterPass rule_in rule_out k (pronoPass rule_in rule_out p)

/-- Source `graph2prono`: `graph2phone`, `addPhoneBoundary`, one
`phone2prono` pass, delimiter normalization, then the fixpoint loop.
`none` models the `addPhoneBoundary` index error or a loop that has not
terminated within `fuel` iterations. -/
def graph2prono (rule_in rule_out : List String) (fuel : Nat)
    (graphs : List Nat) : Option (List Char) :=
  match addPhoneBoundary (graph2phone graphs) with
  | none => none
  | some romanized_bd =>
    let prono := phone2prono rule_in rule_out romanized_bd
    let prono := subChar ',' ' ' prono
    let prono := stripTrailingSpace prono
    let prono := subChar '#' '-' prono
    let prono := collapseDash false prono
    g2prLoop rule_in rule_out fuel prono

/-- The `rule_in` table of `runKoG2P`, verbatim from the source. -/
def ruleInTable : List String := [
  "ii,ll,[#-]y([aeoquv]),",
  "(h0,aa|t0,xx),ll,-ii,ll,",
  "s0,vv,ll,-ii,kf,",
  "mm,uu,ll,-k0,oo,-k0,ii,",
  "s0,ii,ll,-s0,ii,ll",
  "k0,ii,-s0,xx,lk,",
  "c0,vv,ll,-ya,kf,",
  "k0,xx,mf,-yo,-ii,ll,",
  "lt,-ii,",
  "(?<=nn,vv,)lb,(?=-(c0,(uu|vv),kf|t0,(uu|vv),ng))",
  "(?<=s0,ii,)lh,-c0,(?=xx,ng)",
  "t0,aa,lk,",
  "(wq|we|oo),nf,-k0,aa,c0,",
  "mm,aa,tf,-h0,yv,ng,",
  "k0,vv,th,-oo,s0,",
  "c0,uu,ll,-nn,vv,mf,-k0,ii,",
  "h0,oo,th,-ii,-p0,uu,ll,",
  "s0,aa,ks,-ii,ll,",
  "mm,qq,nf,-ii,pf,",
  "kk,oo,ch,-ii,ph,",
  "nn,qq,-p0,oo,kf,-ya,kf,",
  "h0,aa,nf,-yv,-rr,xx,mf,",
  "nn,aa,mf,-c0,oo,nf,-yv,-p0,ii,",
  "s0,ii,nf,-yv,-s0,vv,ng,",
  "s0,qq,kf,-yv,nf,-ph,ii,ll,",
  "t0,aa,mf,-yo,",
  "nn,uu,nf,-yo,-k0,ii,",
  "vv,pf,-yo,ng,",
  "s0,ii,kf,-yo,ng,-yu,",
  "nf,-yu,nf,-rr,ii,",
  "(c0|s0),(aa|oo|uu),ll,-ii,(ph|p0|pf),",
  "(?=(^|#))h0,aa,nf,-ii,ll,",
  "(?=(^|#))mm,aa,kf,-ii,ll,",
  "mm,oo,ll,-s0,aa,ng,-s0,ii,kf,",
  "oo,s0,#ii,pf,",
  "(nf|ll),-yv,-s0,vv,-s0,",
  "(ng|mf|nf),-y([aeoquv]),",
  "(wv|ii),ll,-y([aeoquv]),",
  "ll,-y([aeoquv]),",
  "ii,ll,-c0,vv,ll,",
  "(th|tf|s0),-y([aeoquv]),",
  "(<=^|#)mm,aa,kf,-ii,ll",
  "k0,uu,-k0,xx,nf,-rr,yu,",
  "k0,aa,ll,-([ct])0,xx,ng,",
  "p0,aa,ll,-t0,oo,ng,",
  "c0,vv,ll,-t0,oo,",
  "mm,aa,ll,-s0,aa,ll,",
  "p0,uu,ll,-s0,",
  "ii,ll,-s0,ii,",
  "p0,aa,ll,-c0,vv,nf,",
  "(?<=(s0,ii,nf,|s0,aa,mf,)-)(c|k|t)0,",
  "(?<=k0,ii,mf,-)p0,",
  "(?<=t0,vv,-t0,xx,mf,-)c0,",
  "c0,aa,mf,-c0,aa,-rr,ii,",
  "(?<=(ng|ll),-)c0,(?=uu,ll,-k0,ii)",
  "(?<=(nf|ll),-)p0,vv,pf,",
  "(?<=(nf|tf),-)p0,(?=aa,-rr,aa,mf)",
  "p0,aa,-rr,aa,mf,-k0,yv,ll,",
  "(?<=(mf|kf),-)p0,(?=aa,pf,)",
  "(?<=nn,uu,nf,-)t0,",
  "mm,aa,kf,-yv,mf,",
  "p0,aa,lb,-(t|k)0,",
  "p0,aa,lb,-nn,",
  "nn,vv,lb,-(t|k)0,",
  "mm,(aa|vv),s0,-ii,ss,-t0,aa,",
  "mm,(aa|vv),s0,-vv,ps,-t0,aa,",
  "c0,vv,c0,-vv,-mm,ii,",
  "h0,vv,s0,-uu,s0,-xx,mf,",
  "k0,aa,ps,-vv,-ch,ii,",
  "k0,aa,ps,-ii,ss,-nn,xx,nf,",
  "c0,vv,lm,-c0,ii,",
  "oo,lm,-k0,(?=[iy])",
  "k0,uu,lm,-k0,ii,-t0,aa,",
  "(nn|k0|h0),aa,ll,-(p|s|c|k|t)0,",
  "ch,vv,s0,-ii,nf,",
  "(?<=(mf|nf),-)ii,-p0,uu,ll,",
  "(?<=(nf|ll),-)k0,oo,-rr,ii,",
  "(?<=(nf|ll),-)s0,qq,",
  "(?<=(nf|ll),-)c0,qq,-c0,uu,",
  "k0,ii,ll,-k0,aa,",
  "mm,uu,ll,-t0,oo,ng,-ii,",
  "mm,uu,ll,-c0,",
  "(?<=(nf|ll),-)p0,aa,-t0,aa,kf,",
  "(?<=(nf|ll),-)s0,oo,kf,",
  "(?<=s0,uu,ll,-)(c|p|t)0,",
  "k0,aa,ng,-k0,aa,",
  "(?<=(ng|mf),-)t0,aa,ll,",
  "t0,xx,ng,-p0,uu,ll,",
  "ch,aa,ng,-s0,aa,ll,",
  "(?<=(ll|ng),-)c0,uu,ll,-k0,ii,",
  "aa,nf,-k0,oo,",
  "(?<=kk,yv,-aa,nf,-)(t|c)0,",
  "ii,-c0,uu,kf,-ii,-c0,uu,kf,",
  "ya,-k0,xx,mf,-ya,-k0,xx,mf,",
  "p0,ee,-k0,qq,s0,-ii,s0,",
  "kk,qq,s0,-ii,ph,",
  "nn,aa,-mm,uu,s0,-ii,ph,",
  "qq,s0,-yv,ll,",
  "t0,wi,s0,-(?=[aeqiouyvwx])",
  "nn,xx,c0,-yv,-rr,xx,mf,",
  "t0,ii,-k0,xx,tf,-(ii|xx|ee),",
  "(c0|ch|th|h0),ii,-xx,(c0|ch|th|h0),-(ii|xx|ee),",
  "ph,ii,-xx,ph,-(ii|xx|ee),",
  "kh,ii,-xx,kh,-(ii|xx|ee),",
  "l(b|p),-h0,",
  "nh,-(c|k|t)0,",
  "lh,-(c|k|t)0,",
  "lk,-h0,",
  "nc,-h0,",
  "(k0,aa,|k0,uu,|k0,vv,|oo,|p0,aa,|nn,aa,|nn,xx,|p0,uu,|^ii,|-,ii,mm,aa,|mm,uu,|(^|-,)vv,)lk,-(t0|c0|s0),",
  "(k0,aa,|k0,uu,|k0,vv,|vv,|oo,|mm,aa,|p0,aa,|nn,aa,|nn,xx,|mm,uu,|p0,uu,|^ii,|-,ii,)lk,-k0,",
  "nh,-(k|t|c)0,",
  "nh,-s0,",
  "nh,-nn,",
  "nh,-(?=[aeqiouyvwx])",
  "lh,-nn,",
  "lh,-(k|t|c)0,",
  "lh,-s0,",
  "lh,-(?=[aeqiouyvwx])",
  "nc,-([ktsc])0,",
  "(c0,vv,|c0,ii,|k0,uu,|t0,aa,|(^|-,)oo,|k0,oo,)lm,-([ktsc])0,",
  "(p0,aa,|tt,vv,|(^|-,)yv,|nn,vv,|(^|-,)ya,|cc,aa,)lb,-([ktsc])0,",
  "h0,(aa|uu),lt,-nn,",
  "h0,(aa|uu),lt,-([ktsc])0,",
  "lk,-(c|k|p|s|t)0,",
  "l(b|p),-p0,",
  "s0,-p0,",
  "l(b|t),-(c|k|s|t|p)0,",
  "lp,-(c|k|s|t)0,",
  "(c[h0]|s[s0]|t[fh]),-(c|k|s|t)0,",
  "k[fhks],-(c|k|p|s|t)0,",
  "p[sfh],-(c|k|p|s|t)0,",
  "(?<=(kf|kh|ks|ss|c0|ch|tf|th),-)p0,",
  "h0,-s0,",
  "nh,-s0,",
  "lh,-s0,",
  "(ks|lk),(?=(#|$|-[ptkshcmnr]))",
  "n[ch],(?=(#|$|-[ptkshcmnr]))",
  "l[bsth],(?=(#|$|-[ptkshcmnr]))",
  "lm,(?=(#|$|-[ptkshcmnr]))",
  "(ps|lp),(?=(#|$|-[ptkshcmnr]))",
  "([kp])s,-(?=[aeqiouyvwx])",
  "ls,-(?=[aeqiouyvwx])",
  "nc,-(?=[aeqiouyvwx])",
  "lk,-(?=[aeqiouyvwx])",
  "lm,-(?=[aeqiouyvwx])",
  "lb,-(?=[aeqiouyvwx])",
  "l([tp]),-(?=[aeqiouyvwx])",
  "(?<=[pk])0,-rr,",
  "(c0|ch|s0|ss|tf|nh|h0),-nn,",
  "nc,-(p|t|k)0,",
  "nc,(?=-[ptkshcmnr])",
  "lm,-k0,",
  "lm,(?=-[ptkshcmnr])",
  "k[fhks],(?=-(nn|mm),)",
  "lk,(?=-(nn|mm),)",
  "p[sfh],(?=-(nn|mm),)",
  "l[bp],(?=-(nn|mm),)",
  "(?<=(mf|ng|pf|kf),-)rr,",
  "(c0|ch|s0|ss|tf|nh|h0),(?=-mm,)",
  "ll,-(?=y)",
  "(nf|ll),-rr,",
  "l[lht],-nn,",
  "tf,-(?=[iy])",
  "th,-(?=[iy])",
  "tf,-h0,(?=[iy])",
  "(p|k)f,-h0,",
  "h0,-(c|k|t)0,",
  "(tf|th|s0),(-|#)h0,",
  "(s0|ss|kk|p0|ph|pp|t0|th|tt|c0|ch|kh|kk|k0|mm|nn),-(?=[aeqiouyvwx])",
  "nh,-(?=[aeqiouyvwx])",
  "(s0|ss|c0|ch|th),(?=-[ptkshcmnr])",
  "h0,-(?=[aeqiouyvwx])",
  "lh,-?(?=[aeqiouyvwx])",
  "(p|t|k)f,-?(?=[aeqiouyvwx])",
  "(m|n)f,-?(?=[aeqiouyvwx])",
  "(s0|ss|c0|ch|th),(?=-|#|$)",
  "(kh|kk|ks|lk),(?=-|#|$|[ptkshcmnr])",
  "(ph|lp|ps),(?=-|#|$|[ptkshcmnr])",
  "(?<=[ptkshcmnr].),-(?=[aeqiouyvwx])",
  "l[bhstp],(?=-|#|$|[ptkshcmnr])",
  "nh,(?=-|#|$|[ptkshcmnr])",
  "(?<=[aeqiouyvwx].,)ll,-(?=[aeqiouyvwx])",
  "ll,-ll,"
]

/-- The `rule_out` table of `runKoG2P`, verbatim from the source. -/
def ruleOutTable : List String := [
  "ii,ll,rr,y\\1,",
  "\\1,ll,rr,ii,ll,",
  "s0,vv,ll,rr,ii,kf,",
  "mm,uu,ll,kk,oo,k0,ii,",
  "s0,ii,ll,s0,ii,ll",
  "k0,ii,s0,xx,kf,",
  "c0,vv,rr,ya,kf,",
  "k0,xx,-mm,yo,-ii,ll,",
  "ll,-ch,ii,",
  "pf,",
  "ll,cc,",
  "t0,aa,kf,",
  "\\1,nf,k0,aa,tf,",
  "mm,aa,th,yv,ng,",
  "k0,vv,t0,oo,tf,",
  "c0,uu,ll,rr,vv,mf,-kk,ii,",
  "h0,oo,nf,nn,ii,p0,uu,ll,",
  "s0,aa,ng,nn,ii,ll,",
  "mm,qq,nf,nn,ii,pf,",
  "kk,oo,nf,nn,ii,pf,",
  "nn,qq,p0,oo,ng,nn,ya,kf,",
  "h0,aa,nf,nn,yv,rr,xx,mf,",
  "nn,aa,mf,c0,oo,nf,nn,yv,p0,ii,",
  "s0,ii,nf,nn,yv,s0,vv,ng,",
  "s0,qq,ng,nn,yv,nf,ph,ii,ll,",
  "t0,aa,mf,nn,yo,",
  "nn,uu,nf,nn,yo,k0,ii,",
  "vv,mf,nn,yo,ng,",
  "s0,ii,k0,yo,ng,nn,yu,",
  "nf,nn,yu,ll,rr,ii,",
  "\\1,\\2,ll,rr,ii,pf,",
  "h0,aa,nf,nn,ii,ll,",
  "mm,aa,ng,nn,ii,ll,",
  "mm,oo,ll,ss,aa,ng,s0,ii,kf,",
  "oo,nf,nn,ii,pf,",
  "\\1,nn,yv,s0,vv,tf,",
  "\\1,nn,y\\2,",
  "\\1,rr,y\\2,",
  "ll,rr,y\\1,",
  "ii,ll,cc,vv,ll,",
  "nf,-nn,y\\2,",
  "mm,aa,ng,nn,ii,ll",
  "k0,uu,k0,xx,nf,nn,yu,",
  "k0,aa,ll,\\1\\1,xx,ng,",
  "p0,aa,ll,tt,oo,ng,",
  "c0,vv,ll,tt,oo,",
  "mm,aa,ll,ss,aa,ll,",
  "p0,uu,ll,ss,",
  "ii,ll,ss,ii,",
  "p0,aa,ll,cc,vv,nf,",
  "\\2\\2,",
  "pp,",
  "cc,",
  "c0,aa,mf,cc,aa,rr,ii,",
  "cc,",
  "pp,vv,pf,",
  "pp,",
  "p0,aa,rr,aa,mf,kk,yv,ll,",
  "pp,",
  "tt,",
  "mm,aa,ng,nn,yv,mf,",
  "p0,aa,pf,\\1\\1,",
  "p0,aa,mf,nn,",
  "nn,vv,ll,\\1\\1,",
  "mm,\\1,t0,ii,tf,tt,aa,",
  "mm,\\1,t0,vv,pf,tt,aa,",
  "c0,vv,t0,vv,mm,ii,",
  "h0,vv,t0,uu,s0,xx,mf,",
  "k0,aa,p0,vv,ch,ii,",
  "k0,aa,p0,ii,nf,nn,xx,nf,",
  "c0,vv,mf,cc,ii,",
  "oo,mf,k0,",
  "k0,uu,mf,k0,ii,t0,aa,",
  "\\1,aa,ll,\\2\\2,",
  "ch,vv,t0,ii,nf,",
  "nn,ii,p0,uu,ll,",
  "kk,oo,rr,ii,",
  "ss,qq,",
  "cc,qq,c0,uu,",
  "k0,ii,ll,kk,aa,",
  "mm,uu,ll,tt,oo,ng,ii,",
  "mm,uu,ll,-cc,",
  "pp,aa,t0,aa,kf,",
  "ss,oo,kf,",
  "\\1\\1,",
  "k0,aa,ng,kk,aa,",
  "tt,aa,ll,",
  "t0,xx,ng,pp,uu,ll,",
  "ch,aa,ng,ss,aa,ll,",
  "k0,aa,ng,cc,uu,ll,k0,ii,",
  "aa,nf,kk,oo,",
  "\\1\\1,",
  "ii,c0,uu,ng,nn,ii,c0,uu,kf,",
  "ya,k0,xx,mf,nn,ya,k0,xx,mf,",
  "p0,ee,k0,qq,nf,nn,ii,tf,",
  "kk,qq,nf,nn,ii,pf,",
  "nn,aa,mm,uu,nf,nn,ii,pf,",
  "qq,nf,nn,yv,ll,",
  "t0,wi,nf,-nn,",
  "nn,xx,tf,nn,yv,rr,xx,mf,",
  "t0,ii,k0,xx,s0,\\1,",
  "\\1,ii,xx,s0,\\3,",
  "ph,ii,xx,p0,\\1,",
  "kh,ii,xx,k0,\\1,",
  "ll,-ph,",
  "nf,-\\1h,",
  "ll,-\\1h,",
  "ll,-kh,",
  "nf,-ch,",
  "\\1kf,-\\3,",
  "\\1ll,-kk,",
  "nf,-\\1h,",
  "nf,-ss,",
  "nf,-nn,",
  "-nn,",
  "ll,-rr,",
  "ll,-\\1h,",
  "ll,-ss,",
  "-rr,",
  "nf,-\\1\\1,",
  "\\1mf,-\\3\\3,",
  "\\1ll,-\\4\\4,",
  "h0,\\1,ll,-ll,",
  "h0,\\1,ll,-\\2\\2,",
  "kf,-\\1\\1,",
  "pf,-pp,",
  "tf,-pp,",
  "ll,-\\2\\2,",
  "pf,-\\1\\1,",
  "tf,-\\2\\2,",
  "kf,-\\1\\1,",
  "pf,-\\1\\1,",
  "pp,",
  "-ss,",
  "nf,-ss,",
  "ll,-ss,",
  "kf,",
  "nf,",
  "ll,",
  "mf,",
  "pf,",
  "\\1f,-ss,",
  "ll,-ss,",
  "nf,-c0,",
  "ll,-k0,",
  "ll,-mm,",
  "ll,-p0,",
  "ll,-\\1h,",
  "f,-nn,",
  "nf,-nn,",
  "nf,-\\1\\1,",
  "nf,",
  "mf,-kk,",
  "mf,",
  "ng,",
  "ng,",
  "mf,",
  "mf,",
  "nn,",
  "nf,",
  "-rr,",
  "ll,-rr,",
  "ll,-rr,",
  "-c0,",
  "-ch,",
  "-ch,",
  "-\\1h,",
  "-\\1h,",
  "-th,",
  "-\\1,",
  "-nn,",
  "tf,",
  "-",
  "-rr,",
  "-\\g<1>0,",
  "-\\1\\1,",
  "tf,",
  "kf,",
  "pf,",
  ",",
  "ll,",
  "nf,-",
  "-rr,",
  "ll,-rr,"
]

/-- Source `runKoG2P` (the `convert` operation of the spec): `graph2prono`
with the fixed rule table. -/
def runKoG2P (fuel : Nat) (graph : List Nat) : Option (List Char) :=
  graph2prono ruleInTable ruleOutTable fuel graph

end KoG2P

namespace KoG2P

theorem hasDashOh_cons_false {c : Char} {rest : List Char}
    (h : hasDashOh (c :: rest) = false) : hasDashOh rest = false := by
  match rest with
  | [] => rfl
  | [d] => rfl
  | d :: e :: t =>
    rw [hasDashOh] at h
    split at h
    · exact absurd h (by simp)
    · exact h

theorem subDashOh_eq_self : ∀ {s : List Char}, hasDashOh s = false → subDashOh s = s := by
  intro s
  induction s using subDashOh.induct with
  | case1 => intro _; rfl
  | case2 c => intro _; rfl
  | case3 c d => intro _; rfl
  | case4 c d e rest hc ih =>
    intro h
    rw [hasDashOh] at h
    rw [if_pos hc] at h
    exact absurd h (by simp)
  | case5 c d e rest hc ih =>
    intro h
    rw [hasDashOh, if_neg hc] at h
    rw [subDashOh, if_neg hc, ih h]

theorem hasDashOh_of_not_mem : ∀ {s : List Char}, '-' ∉ s → hasDashOh s = false := by
  intro s
  induction s using hasDashOh.induct with
  | case1 => intro _; rfl
  | case2 c => intro _; rfl
  | case3 c d => intro _; rfl
  | case4 c d e rest hc =>
    intro h
    obtain ⟨h1, _, _⟩ := hc
    exact absurd (h1 ▸ List.mem_cons_self c _) h
  | case5 c d e rest hc ih =>
    intro h
    rw [hasDashOh, if_neg hc]
    exact ih (fun hm => h (List.mem_cons_of_mem c hm))

theorem subDashOh_of_not_mem {s : List Char} (h : '-' ∉ s) : subDashOh s = s :=
  subDashOh_eq_self (hasDashOh_of_not_mem h)

theorem subDashOh_append : ∀ {acc : List Char}, hasDashOh acc = false →
    ∀ (chunk : List Char), (chunk.head? = some '-' ∨ chunk.head? = some '#') →
    subDashOh (acc ++ chunk) = acc ++ subDashOh chunk := by
  intro acc
  induction acc with
  | nil => intro _ chunk _; simp
  | cons c rest ih =>
    intro h chunk hc
    have hrest : hasDashOh rest = false := hasDashOh_cons_false h
    match rest with
    | [] =>
      match chunk, hc with
      | [], _ => simp [subDashOh]
      | h1 :: t, hc =>
        have h1v : h1 = '-' ∨ h1 = '#' := by
          rcases hc with hc | hc <;> simp at hc <;> simp [hc]
        match t with
        | [] =>
          rcases h1v with rfl | rfl <;> rfl
        | h2 :: t2 =>
          show subDashOh (c :: h1 :: h2 :: t2) = c :: subDashOh (h1 :: h2 :: t2)
          rw [subDashOh, if_neg (by rcases h1v with rfl | rfl <;> simp)]
    | [d] =>
      match chunk, hc with
      | [], _ => simp [subDashOh]
      | h1 :: t, hc =>
        have h1v : h1 = '-' ∨ h1 = '#' := by
          rcases hc with hc | hc <;> simp at hc <;> simp [hc]
        show subDashOh (c :: d :: h1 :: t) = c :: d :: subDashOh (h1 :: t)
        rw [subDashOh, if_neg (by rcases h1v with rfl | rfl <;> simp)]
        have hone := ih (by rfl) (h1 :: t) hc
        simpa using congrArg (c :: ·) hone
    | d :: e :: t =>
      have hne : ¬(c = '-' ∧ d = 'o' ∧ e = 'h') := by
        intro hcon
        rw [hasDashOh, if_pos hcon] at h
        exact absurd h (by simp)
      show subDashOh (c :: d :: e :: (t ++ chunk)) = c :: d :: e :: t ++ subDashOh chunk
      rw [subDashOh, if_neg hne]
      have := ih hrest chunk hc
      simpa using congrArg (c :: ·) this

theorem hasDashOh_append : ∀ {s : List Char}, hasDashOh s = false →
    ∀ {t : List Char}, hasDashOh t = false →
    t.head? ≠ some 'o' → t.head? ≠ some 'h' →
    hasDashOh (s ++ t) = false := by
  intro s
  induction s with
  | nil => intro _ t ht _ _; simpa using ht
  | cons c rest ih =>
    intro h t ht ho hh
    have hrest : hasDashOh rest = false := hasDashOh_cons_false h
    match rest with
    | [] =>
      match t with
      | [] => rfl
      | [t1] => rfl
      | t1 :: t2 :: tt =>
        show hasDashOh (c :: t1 :: t2 :: tt) = false
        rw [hasDashOh, if_neg (by rintro ⟨_, h2, _⟩; exact ho (by simp [h2]))]
        exact ht
    | [d] =>
      match t with
      | [] => rfl
      | t1 :: tt =>
        show hasDashOh (c :: d :: t1 :: tt) = false
        rw [hasDashOh, if_neg (by rintro ⟨_, _, h3⟩; exact hh (by simp [h3]))]
        exact ih (by rfl) ht ho hh
    | d :: e :: tl =>
      have hne : ¬(c = '-' ∧ d = 'o' ∧ e = 'h') := by
        intro hcon
        rw [hasDashOh, if_pos hcon] at h
        exact absurd h (by simp)
      show hasDashOh (c :: d :: e :: (tl ++ t)) = false
      rw [hasDashOh, if_neg hne]
      exact ih hrest ht ho hh

theorem ons_entry_facts : ∀ s ∈ ONS, s.data.length = 2 ∧ '-' ∉ s.data := by decide

theorem nuc_entry_facts : ∀ s ∈ NUC,
    s.data.length = 2 ∧ '-' ∉ s.data ∧ 'h' ∉ s.data := by decide

theorem cod_entry_facts : ∀ s ∈ COD, '-' ∉ s.data := by decide

theorem getD_mem_of_lt {α : Type} (l : List α) (d : α) {i : Nat}
    (h : i < l.length) : l.getD i d ∈ l := by
  rw [List.getD_eq_getElem?_getD, List.getElem?_eq_getElem h]
  exact List.getElem_mem h

theorem chunk_shape {o n dd : List Char} (ho1 : o.length = 2) (ho2 : '-' ∉ o)
    (hn1 : n.length = 2) (hn2 : '-' ∉ n) (hn3 : 'h' ∉ n) (hd2 : '-' ∉ dd) :
    hasDashOh (subDashOh ('-' :: (o ++ n ++ dd))) = false ∧
    (subDashOh ('-' :: (o ++ n ++ dd))).head? = some '-' := by
  obtain ⟨o0, o1, rfl⟩ := List.length_eq_two.mp ho1
  obtain ⟨n0, n1, rfl⟩ := List.length_eq_two.mp hn1
  have hn1h : n1 ≠ 'h' := fun hc => hn3 (by simp [hc])
  have hnodashn : '-' ∉ n0 :: n1 :: dd := by
    intro hm
    rcases List.mem_cons.mp hm with hm | hm
    · exact hn2 (List.mem_cons.mpr (Or.inl hm))
    rcases List.mem_cons.mp hm with hm | hm
    · exact hn2 (List.mem_cons.mpr (Or.inr (List.mem_cons.mpr (Or.inl hm))))
    · exact hd2 hm
  have hshape : ('-' :: ([o0, o1] ++ [n0, n1] ++ dd))
      = '-' :: o0 :: o1 :: n0 :: n1 :: dd := by simp
  rw [hshape]
  constructor <;>
  · by_cases hoh : o0 = 'o' ∧ o1 = 'h'
    · rw [subDashOh, if_pos ⟨rfl, hoh.1, hoh.2⟩,
        subDashOh_of_not_mem hnodashn]
      first
      | (rw [hasDashOh, if_neg (by rintro ⟨_, _, hx⟩; exact hn1h hx)]
         exact hasDashOh_of_not_mem hnodashn)
      | rfl
    · rw [subDashOh, if_neg (by rintro ⟨_, hx1, hx2⟩; exact hoh ⟨hx1, hx2⟩)]
      have hnodasho : '-' ∉ o0 :: o1 :: n0 :: n1 :: dd := by
        intro hm
        rcases List.mem_cons.mp hm with hm | hm
        · exact ho2 (List.mem_cons.mpr (Or.inl hm))
        rcases List.mem_cons.mp hm with hm | hm
        · exact ho2 (List.mem_cons.mpr (Or.inr (List.mem_cons.mpr (Or.inl hm))))
        · exact hnodashn hm
      rw [subDashOh_of_not_mem hnodasho]
      first
      | (rw [hasDashOh, if_neg (by rintro ⟨_, hx1, hx2⟩; exact hoh ⟨hx1, hx2⟩)]
         exact hasDashOh_of_not_mem hnodasho)
      | rfl

theorem sylChunk_facts {c : Nat} (h : isHangul c) :
    (sylChunk c).head? = some '-' ∧
    hasDashOh (subDashOh (sylChunk c)) = false ∧
    (subDashOh (sylChunk c)).head? = some '-' := by
  obtain ⟨h1, h2⟩ := h
  have hons : iONS c - 1 < ONS.length := by
    have : (c - 44032) / 588 < 19 := by omega
    simpa [iONS, ONS]
  have hnuc : iNUC c - 1 < NUC.length := by
    have : ((c - 44032) % 588) / 28 < 21 := by omega
    simpa [iNUC, NUC]
  have hcod : iCOD c - 1 < COD.length := by
    have : ((c - 44032) % 588) % 28 < 28 := by omega
    simpa [iCOD, COD]
  obtain ⟨ho1, ho2⟩ := ons_entry_facts _ (getD_mem_of_lt ONS ("") hons)
  obtain ⟨hn1, hn2, hn3⟩ := nuc_entry_facts _ (getD_mem_of_lt NUC ("") hnuc)
  have hd2 := cod_entry_facts _ (getD_mem_of_lt COD ("") hcod)
  have hmain := chunk_shape ho1 ho2 hn1 hn2 hn3 hd2
  exact ⟨rfl, hmain.1, hmain.2⟩

theorem g2pLoop_filter : ∀ (l : List Nat) (acc : List Char),
    hasDashOh acc = false →
    g2pLoop acc l = g2pLoop acc (l.filter keepChar) := by
  intro l
  induction l with
  | nil => intro acc _; rfl
  | cons c rest ih =>
    intro acc h
    by_cases h32 : c = 32
    · subst h32
      have hkeep : keepChar 32 = true := by decide
      rw [List.filter_cons, hkeep, if_pos rfl]
      have hstep : ∀ m, g2pLoop acc (32 :: m)
          = g2pLoop (subDashOh (acc ++ ['#'])) m := by
        intro m
        rw [g2pLoop, if_pos rfl]
      rw [hstep, hstep]
      have heq : subDashOh (acc ++ ['#']) = acc ++ ['#'] := by
        rw [subDashOh_append h ['#'] (Or.inr rfl)]; rfl
      rw [heq]
      exact ih (acc ++ ['#'])
        (hasDashOh_append h (by rfl) (by simp) (by simp))
    · by_cases hh : isHangul c
      · have hkeep : keepChar c = true := by simp [keepChar, hh]
        rw [List.filter_cons, hkeep, if_pos rfl]
        have hstep : ∀ m, g2pLoop acc (c :: m)
            = g2pLoop (subDashOh (acc ++ sylChunk c)) m := by
          intro m
          rw [g2pLoop, if_neg h32, if_pos hh]
        rw [hstep, hstep]
        obtain ⟨hch, hcd, hche⟩ := sylChunk_facts hh
        have heq : subDashOh (acc ++ sylChunk c) = acc ++ subDashOh (sylChunk c) :=
          subDashOh_append h (sylChunk c) (Or.inl hch)
        rw [heq]
        refine ih _ (hasDashOh_append h hcd ?_ ?_) <;>
          simp [hche]
      · have hkeep : keepChar c = false := by simp [keepChar, h32, hh]
        rw [List.filter_cons, hkeep, if_neg (by simp)]
        have hstep : g2pLoop acc (c :: rest) = g2pLoop (subDashOh acc) rest := by
          rw [g2pLoop, if_neg h32, if_neg hh]
        rw [hstep, subDashOh_eq_self h]
        exact ih acc h

theorem graph2phone_filter (l : List Nat) :
    graph2phone l = graph2phone (l.filter keepChar) := by
  unfold graph2phone
  rw [g2pLoop_filter l [] rfl]

/-- Claim C1: for every Hangul codepoint `c` in `[0xAC00, 0xD7A3]` the
decomposition computed by `graph2phone` equals
`onsetIdx = (c - 0xAC00) / 588`, `nucleusIdx = ((c - 0xAC00) % 588) / 28`,
`codaIdx = (c - 0xAC00) % 28`, with `onsetIdx ∈ [0,18]`,
`nucleusIdx ∈ [0,20]`, `codaIdx ∈ [0,27]`, and for `c = 0xAC00` the result
is `(0,0,0)`. -/
theorem hangul_decomposition_correct (c : Nat) (h1 : 44032 ≤ c) (h2 : c ≤ 55203) :
    iONS c - 1 = (c - 0xAC00) / 588 ∧
    iNUC c - 1 = ((c - 0xAC00) % 588) / 28 ∧
    iCOD c - 1 = (c - 0xAC00) % 28 ∧
    iONS c - 1 ≤ 18 ∧ iNUC c - 1 ≤ 20 ∧ iCOD c - 1 ≤ 27 ∧
    (c = 0xAC00 → iONS c - 1 = 0 ∧ iNUC c - 1 = 0 ∧ iCOD c - 1 = 0) := by
  unfold iONS iNUC iCOD
  omega

/-- Witness for C1 at the minimal syllable `c = 0xAC00` and at `c = 50521`
(the syllable `ang`). -/
theorem hangul_decomposition_correct_witness :
    (iONS 44032 - 1 = 0 ∧ iNUC 44032 - 1 = 0 ∧ iCOD 44032 - 1 = 0) ∧
    iONS 50521 - 1 = (50521 - 0xAC00) / 588 :=
  ⟨(hangul_decomposition_correct 44032 (by decide) (by decide)).2.2.2.2.2.2 rfl,
   (hangul_decomposition_correct 50521 (by decide) (by decide)).1⟩

/-- Claim C5 counterexample: the tab codepoint 9 is a whitespace codepoint,
yet `checkCharType` classifies it as `-1` (other) and `graph2phone` drops
it without emitting the boundary marker `#`, unlike codepoint 32. -/
theorem c5_counterexample :
    checkCharType [9] = [-1] ∧
    graph2phone [9, 50500] = "aa".data ∧
    graph2phone [32, 50500] = "#aa".data :=
  ⟨rfl, rfl, rfl⟩

/-- Claim C5 (amended): only the codepoint U+0020 is treated as whitespace
and emits `#`; codepoints in `[0xAC00, 0xD7A3]` are decomposed; every
other codepoint — including every other whitespace codepoint — is dropped
and contributes nothing to the output of `graph2phone`. -/
theorem c5_classification_amended :
    (∀ (pre post : List Nat) (c : Nat), c ≠ 32 → ¬ isHangul c →
      graph2phone (pre ++ c :: post) = graph2phone (pre ++ post)) ∧
    (∀ c : Nat, checkCharType [c] = [1] ↔ c = 32) := by
  constructor
  · intro pre post c hc hh
    have hk : keepChar c = false := by simp [keepChar, hc, hh]
    rw [graph2phone_filter (pre ++ c :: post), graph2phone_filter (pre ++ post)]
    rw [List.filter_append, List.filter_append, List.filter_cons, hk,
      if_neg (by simp)]
  · intro c
    unfold checkCharType
    simp only [List.map_cons, List.map_nil, List.cons.injEq, and_true]
    constructor
    · intro h
      by_cases h32 : c = 32
      · exact h32
      · by_cases hh : isHangul c
        · rw [if_neg h32, if_pos hh] at h
          exact absurd h (by decide)
        · rw [if_neg h32, if_neg hh] at h
          exact absurd h (by decide)
    · intro h
      rw [if_pos h]

/-- Witness for C5 (amended) at the tab codepoint. -/
theorem c5_classification_amended_witness :
    graph2phone [9, 50500] = graph2phone [50500] :=
  c5_classification_amended.1 [] [50500] 9 (by decide) (by decide)

/-- Claim C6 counterexample: in `graph2phone` of `ang` + space + `a`
(codepoints 50521, 32, 50500) the coda `oh` is converted to `ng`, but the
substitution `re.sub('oh([# ]|$)', 'ng', ...)` consumes the following
word-boundary marker, so no `#` separates the two words in the output. -/
theorem c6_counterexample :
    graph2phone [50521, 32, 50500] = "aang-aa".data ∧
    '#' ∉ graph2phone [50521, 32, 50500] :=
  ⟨rfl, by decide⟩

/-- Claim C6 (amended): a coda occurrence of `oh` is converted to the velar
nasal `ng`; a following syllable boundary `-` is preserved, but a following
word-boundary `#` (from whitespace) is consumed by the conversion, so the
word boundary is lost: `ang` + space + `a` yields the same output as
`ang` + `a` with no intervening `#`. -/
theorem c6_coda_ng_amended :
    graph2phone [50521] = "aang".data ∧
    graph2phone [50521, 50500] = "aang-aa".data ∧
    graph2phone [50521, 32, 50500] = "aang-aa".data :=
  ⟨rfl, rfl, rfl⟩

theorem head_dropWhile_false {α : Type} (p : α → Bool) :
    ∀ (l : List α) {c : α}, (l.dropWhile p).head? = some c → p c = false := by
  intro l
  induction l with
  | nil => intro c h; simp at h
  | cons a t ih =>
    intro c h
    rw [List.dropWhile_cons] at h
    by_cases hp : p a
    · rw [if_pos hp] at h
      exact ih h
    · rw [if_neg hp] at h
      simp only [List.head?_cons, Option.some.injEq] at h
      subst h
      simpa using hp

theorem dropTrailingNonword_getLast {s : List Char} {c : Char}
    (h : (dropTrailingNonword s).getLast? = some c) : isWordChar c = true := by
  unfold dropTrailingNonword at h
  rw [List.getLast?_reverse] at h
  have hres := head_dropWhile_false (fun c => !isWordChar c) s.reverse h
  simpa using hres

theorem subLeadingDash_getLast_word {t : List Char}
    (hk : ∀ c : Char, t.getLast? = some c → isWordChar c = true)
    {c : Char} (h : (subLeadingDash t).getLast? = some c) :
    isWordChar c = true := by
  match t with
  | [] => exact absurd h (by simp [subLeadingDash])
  | x :: rest =>
    rw [subLeadingDash] at h
    by_cases hx : x = '-'
    · rw [if_pos hx] at h
      match rest with
      | [] => exact absurd h (by simp)
      | b :: l =>
        exact hk c (by rw [List.getLast?_cons_cons]; exact h)
    · rw [if_neg hx] at h
      exact hk c h

/-- Claim C7 counterexample: for input space + `a` (codepoints 32, 50500)
the output of `graph2phone` is `#aa`: the leading word-boundary marker is
not removed. -/
theorem c7_counterexample :
    graph2phone [32, 50500] = "#aa".data ∧
    (graph2phone [32, 50500]).head? = some '#' :=
  ⟨rfl, rfl⟩

/-- Claim C7 (amended): the output of `graph2phone` never ends with a
dangling `-` or `#` (the final `\W+$` stripping removes every trailing
non-word character), and a single leading `-` is removed, but a leading
word-boundary `#` is not removed, as witnessed by input space + `a`. -/
theorem c7_trailing_amended :
    (∀ (l : List Nat) (c : Char),
      (graph2phone l).getLast? = some c → c ≠ '-' ∧ c ≠ '#') ∧
    graph2phone [32, 50500] = "#aa".data := by
  constructor
  · intro l c h
    have hw : isWordChar c = true := by
      unfold graph2phone at h
      exact subLeadingDash_getLast_word
        (fun c hc => dropTrailingNonword_getLast hc) h
    constructor <;> rintro rfl <;> simp [isWordChar] at hw
  · rfl

/-- Witness for C7 (amended): the last character of `graph2phone` of `a`
(codepoint 50500) is `a`, which is neither `-` nor `#`. -/
theorem c7_trailing_amended_witness : ('a' ≠ '-' ∧ 'a' ≠ '#') :=
  c7_trailing_amended.1 [50500] 'a' rfl

/-- Claim C8: `graph2phone` is a total function (it is defined for every
list of codepoints), and non-Hangul, non-space codepoints contribute
nothing: the output only depends on the kept codepoints, and an input of
only emoji, punctuation and Latin letters produces the empty output. -/
theorem c8_non_hangul_robust :
    (∀ l : List Nat, graph2phone l = graph2phone (l.filter keepChar)) ∧
    graph2phone [128512, 33, 65, 97] = [] :=
  ⟨graph2phone_filter, rfl⟩

theorem apb_cons_reduce {x : Char} (hx1 : ¬x = '-') (hx2 : ¬x = ' ')
    (hx3 : ¬x = '#') (y : Char) (m : List Char) :
    addPhoneBoundary (x :: y :: m)
      = (addPhoneBoundary m).map (fun t => x :: y :: ',' :: t) := by
  rw [addPhoneBoundary.eq_def]
  split
  · next heq => exact absurd heq (by simp)
  · next heq => exact absurd heq (by simp)
  · next sc xv yv restv heq =>
    simp only [List.cons.injEq] at heq
    obtain ⟨rfl, rfl, rfl⟩ := heq
    rw [if_neg hx1, if_neg hx2, if_neg hx3]

theorem apb_drop_lone_last :
    ∀ cs : List Char, (∀ x ∈ cs, x ≠ '-' ∧ x ≠ ' ' ∧ x ≠ '#') →
    cs.length % 2 = 1 →
    addPhoneBoundary cs = addPhoneBoundary cs.dropLast := by
  intro cs
  induction cs using addPhoneBoundary.induct with
  | case1 => intro _ hodd; simp at hodd
  | case2 x => intro _ _; rfl
  | case3 y =>
    intro hfree _
    exact absurd rfl (hfree '-' (by simp)).1
  | case4 y b rest2 ih =>
    intro hfree _
    exact absurd rfl (hfree '-' (by simp)).1
  | case5 y h5 =>
    intro hfree _
    exact absurd rfl (hfree ' ' (by simp)).2.1
  | case6 y b rest2 h6 ih =>
    intro hfree _
    exact absurd rfl (hfree ' ' (by simp)).2.1
  | case7 y h7a h7b =>
    intro hfree _
    exact absurd rfl (hfree '#' (by simp)).2.2
  | case8 y b rest2 h8a h8b ih =>
    intro hfree _
    exact absurd rfl (hfree '#' (by simp)).2.2
  | case9 x y rest hx1 hx2 hx3 ih =>
    intro hfree hodd
    match rest with
    | [] => simp at hodd
    | b :: rest2 =>
      have hrec : addPhoneBoundary (b :: rest2)
          = addPhoneBoundary (b :: rest2).dropLast := by
        refine ih ?_ ?_
        · intro z hz
          exact hfree z (by simp [hz])
        · simp at hodd ⊢
          omega
      have hdl : (x :: y :: b :: rest2).dropLast
          = x :: y :: (b :: rest2).dropLast := by
        simp [List.dropLast]
      rw [hdl, apb_cons_reduce hx1 hx2 hx3, apb_cons_reduce hx1 hx2 hx3, hrec]

/-- Claim C10 counterexample: on input `ab-c` the boundary marker occupies
the second-to-last position; after consuming it the loop reads two more
characters and runs past the end of the string, so Python raises
`IndexError` (modelled as `none`) instead of silently dropping the
remainder. -/
theorem c10_counterexample :
    addPhoneBoundary ("ab-c".data) = none := rfl

/-- Claim C10 (amended): a lone final character is silently dropped (for a
marker-free string of odd length the output equals that of the string
without its last character), and a boundary marker in the final position is
silently dropped as well; but a marker or space in the second-to-last
position, followed by a single character, causes an out-of-range access
(Python `IndexError`), not a silent drop. -/
theorem c10_tokenizer_amended :
    (∀ cs : List Char, (∀ x ∈ cs, x ≠ '-' ∧ x ≠ ' ' ∧ x ≠ '#') →
      cs.length % 2 = 1 →
      addPhoneBoundary cs = addPhoneBoundary cs.dropLast) ∧
    addPhoneBoundary ("ab-".data) = some ("ab,".data) ∧
    addPhoneBoundary ("ab-c".data) = none :=
  ⟨apb_drop_lone_last, rfl, rfl⟩

/-- Witness for C10 (amended): `abc` tokenizes exactly as `ab`. -/
theorem c10_tokenizer_amended_witness :
    addPhoneBoundary ("abc".data) = addPhoneBoundary ("ab".data) :=
  c10_tokenizer_amended.1 ("abc".data) (by decide) (by decide)

/-- Claim C2: for every rule table, the fixpoint iteration of
`graph2prono` returns a value exactly when some iteration's new pass
result equals the previous value after all syllable-boundary markers `-`
are stripped from both (and no earlier iteration satisfied this), and the
returned value is that final string with the markers stripped. -/
theorem c2_fixpoint_characterization (rule_in rule_out : List String)
    (fuel : Nat) (p r : List Char) :
    g2prLoop rule_in rule_out fuel p = some r ↔
      ∃ k, k < fuel ∧
        (∀ j, j < k → removeDash (iterPass rule_in rule_out j p)
            ≠ removeDash (pronoPass rule_in rule_out (iterPass rule_in rule_out j p))) ∧
        removeDash (iterPass rule_in rule_out k p)
          = removeDash (pronoPass rule_in rule_out (iterPass rule_in rule_out k p)) ∧
        r = removeDash (pronoPass rule_in rule_out (iterPass rule_in rule_out k p)) := by
  induction fuel generalizing p with
  | zero =>
    constructor
    · intro h
      exact absurd h (by simp [g2prLoop])
    · rintro ⟨k, hk, _⟩
      omega
  | succ fuel ih =>
    simp only [g2prLoop]
    by_cases hc : removeDash p = removeDash (pronoPass rule_in rule_out p)
    · rw [if_pos hc]
      constructor
      · intro h
        refine ⟨0, Nat.succ_pos _, ?_, ?_, ?_⟩
        · intro j hj
          omega
        · simpa [iterPass] using hc
        · simpa [iterPass] using (Option.some.inj h).symm
      · rintro ⟨k, hk, hfirst, hstop, hr⟩
        match k with
        | 0 =>
          simp only [iterPass] at hr
          rw [hr]
        | k' + 1 =>
          have hne := hfirst 0 (by omega)
          simp only [iterPass] at hne
          exact absurd hc hne
    · rw [if_neg hc]
      rw [ih (pronoPass rule_in rule_out p)]
      constructor
      · rintro ⟨k, hk, hfirst, hstop, hr⟩
        refine ⟨k + 1, by omega, ?_, ?_, ?_⟩
        · intro j hj
          match j with
          | 0 => simpa [iterPass] using hc
          | j' + 1 =>
            have hne := hfirst j' (by omega)
            simpa [iterPass] using hne
        · simpa [iterPass] using hstop
        · simpa [iterPass] using hr
      · rintro ⟨k, hk, hfirst, hstop, hr⟩
        match k with
        | 0 =>
          simp only [iterPass] at hstop
          exact absurd hstop hc
        | k' + 1 =>
          refine ⟨k', by omega, ?_, ?_, ?_⟩
          · intro j hj
            have hne := hfirst (j + 1) (by omega)
            simpa [iterPass] using hne
          · simpa [iterPass] using hstop
          · simpa [iterPass] using hr

set_option maxRecDepth 8000 in
/-- Claim C9: `convert` of the empty string returns the empty string, and
`convert` of the whitespace-only string of three spaces also returns the
empty string (the fixpoint loop terminates on its very first iteration in
both cases). -/
theorem c9_empty_and_whitespace :
    runKoG2P 1 [] = some [] ∧ runKoG2P 1 [32, 32, 32] = some [] :=
  ⟨rfl, rfl⟩

end KoG2P
